import Mathlib

/-!
# Verification of the real-time news daemon (`scripts/monitoring/realtime_news.py`)

A shallow embedding, in Lean 4, of the pure core of the repository's
real-time news daemon: the urgency classifier, the seen-fingerprint
cache with its persistence, the pending-alert queue, the WebSocket
reconnect-backoff loop, the dedup fingerprints (including a full MD5
implementation mirroring `hashlib.md5`), and the load/persist error
handling.  Python strings are modelled as Lean `String`; Python byte
and 32-bit arithmetic is modelled on `Nat` with explicit `% 2^w`;
Python functions that catch exceptions are modelled as total functions
on an explicit input alphabet of outcomes.

Theorems named `claim_*` settle the frozen specification claims.
-/

/-! ## String helpers

Python string primitives used by the daemon, modelled at the level of
`List Char` so that every definition reduces in the kernel.
(`String.toLower`, `String.take`, … use byte positions and do not
reduce, so we mirror them on `String.data`.)
-/

/-- Python `pat in text` (contiguous-substring containment) at the
`List Char` level: `pat` occurs at the current position or in the tail. -/
def charsContain (text pat : List Char) : Bool :=
  match text with
  | [] => pat.isEmpty
  | _ :: rest => pat.isPrefixOf text || charsContain rest pat

/-- Python `pat in text` on strings: contiguous substring containment. -/
def strContains (text pat : String) : Bool :=
  charsContain text.data pat.data

/-- Python `s.lower()` (ASCII case folding, as used on the daemon's
keyword lists and tickers, which are all ASCII). -/
def pyLower (s : String) : String := String.mk (s.data.map Char.toLower)

/-- Python `s.upper()` (ASCII case folding). -/
def pyUpper (s : String) : String := String.mk (s.data.map Char.toUpper)

/-- Python `l[-n:]`: the last `n` elements (the whole list when shorter). -/
def takeLast {α : Type} (n : Nat) (l : List α) : List α :=
  l.drop (l.length - n)

/-- Python `s[:n]` on strings: the first `n` characters. -/
def pyTake (s : String) (n : Nat) : String := String.mk (s.data.take n)

/-! ## Configuration (`realtime_news.py` lines 44–69)

The keyword tiers, watchlist and company-name alias table, copied
verbatim from the source (note the deliberate trailing spaces in
`"war "`, `"cpi "`, `"ppi "`, `"gdp "`). -/

def DEFAULT_WATCHLIST : List String :=
  ["AAPL", "MSFT", "GOOGL", "AMZN", "NVDA", "META", "TSLA"]

def MACRO_CRITICAL : List String :=
  ["federal reserve", "fed rate", "rate hike", "rate cut", "fomc",
   "tariff", "trade war", "sanction", "war ", "invasion",
   "recession", "default", "debt ceiling", "government shutdown",
   "banking crisis", "bank failure", "emergency"]

def MACRO_HIGH : List String :=
  ["inflation", "cpi ", "ppi ", "jobs report", "nonfarm", "unemployment",
   "gdp ", "housing", "consumer confidence", "retail sales",
   "oil price", "crude oil", "opec", "china", "treasury yield"]

def TICKER_CRITICAL : List String :=
  ["earnings", "guidance", "fda approv", "fda reject", "acquire",
   "merger", "bankrupt", "fraud", "sec investigat", "recall",
   "data breach", "ceo resign", "ceo fired"]

def TICKER_HIGH : List String :=
  ["upgrade", "downgrade", "price target", "beat", "miss",
   "revenue", "profit", "contract", "partnership", "dividend",
   "buyback", "stock split", "offering", "dilut", "layoff"]

/-- The `company_map` dict of `classify_news` (insertion order). -/
def COMPANY_MAP : List (String × String) :=
  [("apple", "AAPL"), ("microsoft", "MSFT"), ("google", "GOOGL"),
   ("alphabet", "GOOGL"), ("amazon", "AMZN"), ("nvidia", "NVDA"),
   ("meta platforms", "META"), ("facebook", "META"), ("tesla", "TSLA")]

/-! ## Classifier (`classify_news`, lines 147–211) -/

/-- The result dict of `classify_news`.  The `is_macro` key of the
Python dict is spelled `isMacro` here. -/
structure Classification where
  urgency : String
  matched_tickers : List String
  isMacro : Bool
  keywords_hit : List String
  deriving DecidableEq, Repr

/-- Lines 163–168: the macro-critical keyword loop.  Each hit sets
`urgency="critical"`, `is_macro=True` and appends the keyword. -/
def stageMacroCritical (text : String) (r : Classification) : Classification :=
  MACRO_CRITICAL.foldl
    (fun r kw =>
      if strContains text kw then
        { r with urgency := "critical", isMacro := true,
                 keywords_hit := r.keywords_hit ++ [kw] }
      else r) r

/-- Lines 170–177: the macro-high loop, guarded by
`if result["urgency"] != "critical"`; the inner
`if result["urgency"] != "high"` test is kept as in the source. -/
def stageMacroHigh (text : String) (r : Classification) : Classification :=
  if r.urgency ≠ "critical" then
    MACRO_HIGH.foldl
      (fun r kw =>
        if strContains text kw then
          { r with urgency := if r.urgency ≠ "high" then "high" else r.urgency,
                   isMacro := true,
                   keywords_hit := r.keywords_hit ++ [kw] }
        else r) r
  else r

/-- Lines 179–183: the ticker-critical loop (unguarded: it overrides
any previously set urgency with `"critical"`). -/
def stageTickerCritical (text : String) (r : Classification) : Classification :=
  TICKER_CRITICAL.foldl
    (fun r kw =>
      if strContains text kw then
        { r with urgency := "critical",
                 keywords_hit := r.keywords_hit ++ [kw] }
      else r) r

/-- Lines 185–189: the ticker-high loop, guarded by
`if result["urgency"] not in ("critical",)`. -/
def stageTickerHigh (text : String) (r : Classification) : Classification :=
  if r.urgency ≠ "critical" then
    TICKER_HIGH.foldl
      (fun r kw =>
        if strContains text kw then
          { r with urgency := "high",
                   keywords_hit := r.keywords_hit ++ [kw] }
        else r) r
  else r

/-- A fold that appends `f x` for each `x` whose test passes and whose
image is not already present — the shape of both ticker-resolution
loops of `classify_news` (lines 196–209). -/
def appendStage {α : Type} (f : α → String) (p : α → Bool)
    (l : List α) (acc : List String) : List String :=
  l.foldl
    (fun acc x =>
      if p x && !(acc.contains (f x)) then acc ++ [f x] else acc) acc

/-- Line 193: `[s for s in symbols if s in watchlist_set]`
(order preserved, duplicates kept). -/
def tickerMatchSymbols (symbolsU : List String) : List String :=
  symbolsU.filter (fun s => DEFAULT_WATCHLIST.contains s)

/-- Lines 196–199: scan for watchlist tickers:
`if tk.lower() in text or tk in headline.upper()`, appending `tk`
when not already matched. -/
def headlineScanStage (text headlineUpper : String) (acc : List String) : List String :=
  appendStage id
    (fun tk => strContains text (pyLower tk) || strContains headlineUpper tk)
    DEFAULT_WATCHLIST acc

/-- Lines 202–209: company-name alias resolution:
`if name in text and tk not in result["matched_tickers"]`. -/
def companyNameStage (text : String) (acc : List String) : List String :=
  appendStage Prod.snd (fun pr => strContains text pr.1) COMPANY_MAP acc

/-- `classify_news(headline, summary, symbols)` (lines 147–211).
`symbols=None` is modelled by passing `[]`. -/
def classify_news (headline : String) (summary : String)
    (symbols : List String) : Classification :=
  let text := pyLower (headline ++ " " ++ summary)
  let symbolsU := symbols.map pyUpper
  let r0 : Classification :=
    { urgency := "low", matched_tickers := [], isMacro := false, keywords_hit := [] }
  let r1 := stageMacroCritical text r0
  let r2 := stageMacroHigh text r1
  let r3 := stageTickerCritical text r2
  let r4 := stageTickerHigh text r3
  let m1 := tickerMatchSymbols symbolsU
  let m2 := headlineScanStage text (pyUpper headline) m1
  let m3 := companyNameStage text m2
  { r4 with matched_tickers := m3 }

/-- Urgency tiers ordered by severity (for stating monotonicity):
`low=0 < medium=1 < high=2 < critical=3`. -/
def urgencyRank (u : String) : Nat :=
  if u = "critical" then 3 else if u = "high" then 2
  else if u = "medium" then 1 else 0

/-- The spec's reading of a "whole token" of the raw headline: a
maximal run of non-space characters.  Used only to state the
whole-token claim about the headline scan. -/
def wholeTokens (s : String) : List String :=
  (s.data.foldr
    (fun c acc =>
      if c = ' ' then [] :: acc
      else
        match acc with
        | [] => [[c]]
        | t :: ts => (c :: t) :: ts) [[]]).map String.mk

example : wholeTokens "fed rate hike" = ["fed", "rate", "hike"] := by decide
example : charsContain "abcd".data "bc".data = true := by decide
example : charsContain "abcd".data "bd".data = false := by decide
example : pyLower "AbC" = "abc" := by decide

example :
    classify_news "Apple beats earnings estimates" "" ["AAPL"] =
      { urgency := "critical", matched_tickers := ["AAPL"],
        isMacro := false, keywords_hit := ["earnings"] } := by decide

/-! ## Urgency lemmas (claim C1) -/

/-- Any keyword fold whose step sets the urgency to a fixed value `v`
exactly on hits leaves the urgency at `v` iff some keyword hit
(and untouched otherwise). -/
theorem foldl_urgency {α : Type} (step : Classification → α → Classification)
    (p : α → Bool) (v : String)
    (h : ∀ r x, (step r x).urgency = if p x then v else r.urgency) :
    ∀ (l : List α) (r : Classification),
      (l.foldl step r).urgency = if l.any p then v else r.urgency := by
  intro l
  induction l with
  | nil => intro r; simp
  | cons x xs ih =>
    intro r
    simp only [List.foldl_cons, List.any_cons]
    rw [ih (step r x), h r x]
    by_cases hx : p x = true
    · simp [hx]
    · simp [hx]

theorem stageMacroCritical_urgency (text : String) (r : Classification) :
    (stageMacroCritical text r).urgency =
      if MACRO_CRITICAL.any (strContains text) then "critical" else r.urgency := by
  refine foldl_urgency _ _ _ ?_ _ r
  intro r kw
  by_cases hc : strContains text kw = true <;> simp [hc]

theorem stageMacroHigh_urgency (text : String) (r : Classification) :
    (stageMacroHigh text r).urgency =
      if r.urgency ≠ "critical" then
        (if MACRO_HIGH.any (strContains text) then "high" else r.urgency)
      else r.urgency := by
  unfold stageMacroHigh
  by_cases hg : r.urgency ≠ "critical"
  · rw [if_pos hg, if_pos hg]
    exact foldl_urgency _ (strContains text) "high"
      (by
        intro r kw
        by_cases hc : strContains text kw = true
        · by_cases hh : r.urgency = "high" <;> simp [hc, hh]
        · simp [hc]) MACRO_HIGH r
  · rw [if_neg hg, if_neg hg]

theorem stageTickerCritical_urgency (text : String) (r : Classification) :
    (stageTickerCritical text r).urgency =
      if TICKER_CRITICAL.any (strContains text) then "critical" else r.urgency := by
  refine foldl_urgency _ _ _ ?_ _ r
  intro r kw
  by_cases hc : strContains text kw = true <;> simp [hc]

theorem stageTickerHigh_urgency (text : String) (r : Classification) :
    (stageTickerHigh text r).urgency =
      if r.urgency ≠ "critical" then
        (if TICKER_HIGH.any (strContains text) then "high" else r.urgency)
      else r.urgency := by
  unfold stageTickerHigh
  by_cases hg : r.urgency ≠ "critical"
  · rw [if_pos hg, if_pos hg]
    exact foldl_urgency _ (strContains text) "high"
      (by
        intro r kw
        by_cases hc : strContains text kw = true <;> simp [hc]) TICKER_HIGH r
  · rw [if_neg hg, if_neg hg]

theorem urgencyRank_le_three (u : String) : urgencyRank u ≤ 3 := by
  unfold urgencyRank; split_ifs <;> omega

theorem urgencyRank_le_two_of_ne (u : String) (h : u ≠ "critical") :
    urgencyRank u ≤ 2 := by
  unfold urgencyRank
  rw [if_neg h]
  split_ifs <;> omega

/-- The final urgency of `classify_news` only depends on which keyword
tiers hit, in the source's evaluation order. -/
theorem classify_news_urgency (headline summary : String) (symbols : List String) :
    (classify_news headline summary symbols).urgency =
      (let text := pyLower (headline ++ " " ++ summary)
       let a := MACRO_CRITICAL.any (strContains text)
       let b := MACRO_HIGH.any (strContains text)
       let c := TICKER_CRITICAL.any (strContains text)
       let d := TICKER_HIGH.any (strContains text)
       let u1 := if a then "critical" else "low"
       let u2 := if u1 ≠ "critical" then (if b then "high" else u1) else u1
       let u3 := if c then "critical" else u2
       if u3 ≠ "critical" then (if d then "high" else u3) else u3) := by
  show (stageTickerHigh _ (stageTickerCritical _ (stageMacroHigh _ (stageMacroCritical _ _)))).urgency = _
  rw [stageTickerHigh_urgency, stageTickerCritical_urgency, stageMacroHigh_urgency,
      stageMacroCritical_urgency]

theorem urgencyRank_critical : urgencyRank "critical" = 3 := by decide

theorem urgencyRank_high : urgencyRank "high" = 2 := by decide

theorem urgencyRank_stageMacroCritical_mono (text : String) (r : Classification) :
    urgencyRank r.urgency ≤ urgencyRank (stageMacroCritical text r).urgency := by
  rw [stageMacroCritical_urgency]
  split_ifs with h
  · rw [urgencyRank_critical]; exact urgencyRank_le_three _
  · exact le_refl _

theorem urgencyRank_stageMacroHigh_mono (text : String) (r : Classification) :
    urgencyRank r.urgency ≤ urgencyRank (stageMacroHigh text r).urgency := by
  rw [stageMacroHigh_urgency]
  split_ifs with h1 h2
  · rw [urgencyRank_high]; exact urgencyRank_le_two_of_ne _ h1
  · exact le_refl _
  · exact le_refl _

theorem urgencyRank_stageTickerCritical_mono (text : String) (r : Classification) :
    urgencyRank r.urgency ≤ urgencyRank (stageTickerCritical text r).urgency := by
  rw [stageTickerCritical_urgency]
  split_ifs with h
  · rw [urgencyRank_critical]; exact urgencyRank_le_three _
  · exact le_refl _

theorem urgencyRank_stageTickerHigh_mono (text : String) (r : Classification) :
    urgencyRank r.urgency ≤ urgencyRank (stageTickerHigh text r).urgency := by
  rw [stageTickerHigh_urgency]
  split_ifs with h1 h2
  · rw [urgencyRank_high]; exact urgencyRank_le_two_of_ne _ h1
  · exact le_refl _
  · exact le_refl _

/-- C1: a text containing both a macro-critical and a ticker-high keyword
classifies as `urgency = "critical"`; within one classification pass no
later-evaluated keyword tier ever lowers the urgency set by an earlier
tier (the urgency rank is monotone along the four stages); and a
ticker-critical match always forces `urgency = "critical"`, even when a
macro-high keyword matched earlier. -/
theorem claim_C1 (headline summary : String) (symbols : List String) :
    ((∃ kw ∈ MACRO_CRITICAL,
        strContains (pyLower (headline ++ " " ++ summary)) kw = true) →
     (∃ kw ∈ TICKER_HIGH,
        strContains (pyLower (headline ++ " " ++ summary)) kw = true) →
     (classify_news headline summary symbols).urgency = "critical") ∧
    ((∃ kw ∈ TICKER_CRITICAL,
        strContains (pyLower (headline ++ " " ++ summary)) kw = true) →
     (classify_news headline summary symbols).urgency = "critical") ∧
    (let text := pyLower (headline ++ " " ++ summary)
     let r0 : Classification :=
       { urgency := "low", matched_tickers := [], isMacro := false, keywords_hit := [] }
     let r1 := stageMacroCritical text r0
     let r2 := stageMacroHigh text r1
     let r3 := stageTickerCritical text r2
     let r4 := stageTickerHigh text r3
     urgencyRank r0.urgency ≤ urgencyRank r1.urgency ∧
     urgencyRank r1.urgency ≤ urgencyRank r2.urgency ∧
     urgencyRank r2.urgency ≤ urgencyRank r3.urgency ∧
     urgencyRank r3.urgency ≤ urgencyRank r4.urgency) := by
  refine ⟨?_, ?_, ?_, ?_, ?_, ?_⟩
  · intro hMC _hTH
    have ha : MACRO_CRITICAL.any
        (strContains (pyLower (headline ++ " " ++ summary))) = true :=
      List.any_eq_true.mpr hMC
    rw [classify_news_urgency]
    simp [ha]
  · intro hTC
    have hc : TICKER_CRITICAL.any
        (strContains (pyLower (headline ++ " " ++ summary))) = true :=
      List.any_eq_true.mpr hTC
    rw [classify_news_urgency]
    simp [hc]
  · exact urgencyRank_stageMacroCritical_mono _ _
  · exact urgencyRank_stageMacroHigh_mono _ _
  · exact urgencyRank_stageTickerCritical_mono _ _
  · exact urgencyRank_stageTickerHigh_mono _ _

/-- Witness for C1 at a concrete input: `"Tariff shock, analyst upgrade"`
contains the macro-critical keyword `"tariff"` and the ticker-high
keyword `"upgrade"`, and classifies as critical. -/
theorem claim_C1_witness :
    ("tariff" ∈ MACRO_CRITICAL ∧
     strContains (pyLower ("Tariff shock, analyst upgrade" ++ " " ++ "")) "tariff" = true ∧
     "upgrade" ∈ TICKER_HIGH ∧
     strContains (pyLower ("Tariff shock, analyst upgrade" ++ " " ++ "")) "upgrade" = true) ∧
    (classify_news "Tariff shock, analyst upgrade" "" []).urgency = "critical" :=
  ⟨by decide,
   (claim_C1 "Tariff shock, analyst upgrade" "" []).1
     ⟨"tariff", by decide, by decide⟩ ⟨"upgrade", by decide, by decide⟩⟩

/-! ## Ticker-resolution lemmas (claim C8) -/

theorem appendStage_nil {α : Type} (f : α → String) (p : α → Bool)
    (acc : List String) : appendStage f p [] acc = acc := rfl

theorem appendStage_cons {α : Type} (f : α → String) (p : α → Bool)
    (x : α) (xs : List α) (acc : List String) :
    appendStage f p (x :: xs) acc =
      appendStage f p xs
        (if p x && !(acc.contains (f x)) then acc ++ [f x] else acc) := rfl

/-- The resolution fold only ever appends to its accumulator. -/
theorem appendStage_exists_suffix {α : Type} (f : α → String) (p : α → Bool) :
    ∀ (l : List α) (acc : List String), ∃ t, appendStage f p l acc = acc ++ t := by
  intro l
  induction l with
  | nil => intro acc; exact ⟨[], by simp [appendStage_nil]⟩
  | cons x xs ih =>
    intro acc
    rw [appendStage_cons]
    by_cases hc : (p x && !(acc.contains (f x))) = true
    · rw [if_pos hc]
      obtain ⟨t, ht⟩ := ih (acc ++ [f x])
      exact ⟨[f x] ++ t, by rw [ht, List.append_assoc]⟩
    · rw [if_neg hc]
      exact ih acc

theorem appendStage_mem_of_mem {α : Type} (f : α → String) (p : α → Bool)
    (l : List α) (acc : List String) (y : String) (hy : y ∈ acc) :
    y ∈ appendStage f p l acc := by
  obtain ⟨t, ht⟩ := appendStage_exists_suffix f p l acc
  rw [ht]
  exact List.mem_append_left _ hy

/-- The duplicate guard of the resolution fold preserves `Nodup`. -/
theorem appendStage_nodup {α : Type} (f : α → String) (p : α → Bool) :
    ∀ (l : List α) (acc : List String), acc.Nodup → (appendStage f p l acc).Nodup := by
  intro l
  induction l with
  | nil => intro acc h; rw [appendStage_nil]; exact h
  | cons x xs ih =>
    intro acc h
    rw [appendStage_cons]
    by_cases hc : (p x && !(acc.contains (f x))) = true
    · rw [if_pos hc]
      refine ih _ ?_
      have hnm : f x ∉ acc := by
        have := (Bool.and_eq_true _ _).mp hc
        simpa using this.2
      simp [List.nodup_append, h, hnm]
    · rw [if_neg hc]
      exact ih _ h

/-- Completeness: an element of the scanned list whose test passes ends
up in the resolved accumulator. -/
theorem appendStage_mem_of_hit {α : Type} (f : α → String) (p : α → Bool) :
    ∀ (l : List α) (acc : List String) (x : α),
      x ∈ l → p x = true → f x ∈ appendStage f p l acc := by
  intro l
  induction l with
  | nil => intro acc x hx; exact absurd hx (List.not_mem_nil x)
  | cons y ys ih =>
    intro acc x hx hp
    rw [appendStage_cons]
    rcases List.mem_cons.mp hx with rfl | hmem
    · by_cases hc : (p x && !(acc.contains (f x))) = true
      · rw [if_pos hc]
        exact appendStage_mem_of_mem _ _ _ _ _ (List.mem_append_right _ (List.mem_singleton.mpr rfl))
      · rw [if_neg hc]
        have hin : f x ∈ acc := by
          rcases Bool.and_eq_false_iff.mp (Bool.eq_false_iff.mpr hc) with h1 | h2
          · exact absurd hp (by simp [h1])
          · simpa using h2
        exact appendStage_mem_of_mem _ _ _ _ _ hin
    · exact ih _ _ hmem hp

/-- Soundness: everything in the resolved accumulator was already there
or is the image of a scanned element. -/
theorem appendStage_mem_cases {α : Type} (f : α → String) (p : α → Bool) :
    ∀ (l : List α) (acc : List String) (y : String),
      y ∈ appendStage f p l acc → y ∈ acc ∨ ∃ x ∈ l, y = f x := by
  intro l
  induction l with
  | nil => intro acc y hy; exact Or.inl (by simpa [appendStage_nil] using hy)
  | cons x xs ih =>
    intro acc y hy
    rw [appendStage_cons] at hy
    rcases ih _ y hy with hacc | ⟨z, hz, rfl⟩
    · by_cases hc : (p x && !(acc.contains (f x))) = true
      · rw [if_pos hc] at hacc
        rcases List.mem_append.mp hacc with h | h
        · exact Or.inl h
        · exact Or.inr ⟨x, List.mem_cons_self _ _, (List.mem_singleton.mp h).symm ▸ rfl⟩
      · rw [if_neg hc] at hacc
        exact Or.inl hacc
    · exact Or.inr ⟨z, List.mem_cons_of_mem _ hz, rfl⟩

theorem classify_news_matched (headline summary : String) (symbols : List String) :
    (classify_news headline summary symbols).matched_tickers =
      companyNameStage (pyLower (headline ++ " " ++ summary))
        (headlineScanStage (pyLower (headline ++ " " ++ summary)) (pyUpper headline)
          (tickerMatchSymbols (symbols.map pyUpper))) := rfl

/-- C8 counterexample: on the headline `"metamorphosis"` (where no
watchlist ticker occurs as a whole token) the headline scan still adds
`META`, because the match is a raw substring test; and the duplicate
symbol `AAPL` survives, because the symbols-filter stage does not skip
duplicates.  This refutes the claim's "whole token" and unqualified
"duplicates skipped" readings. -/
theorem claim_C8_counterexample :
    (classify_news "metamorphosis" "" ["AAPL", "AAPL"]).matched_tickers
        = ["AAPL", "AAPL", "META"] ∧
    (wholeTokens "metamorphosis").contains "META" = false ∧
    (wholeTokens "metamorphosis").contains "meta" = false ∧
    "META" ∉ (["AAPL", "AAPL"] : List String) := by decide

/-- C8 amended: the headline scan adds a watchlist ticker whenever its
lowercase form occurs as a substring of the case-folded headline+summary
text, or the ticker occurs as a substring of the uppercased headline
(substring, not whole-token).  Tickers are appended in discovery order:
the watchlist-filtered `symbols` come first (as given, duplicates
included), and the scan and alias stages only append tickers not already
present, so the result is duplicate-free whenever the filtered symbols
are.  Every matched ticker comes from the uppercased symbols, the
watchlist, or the alias table. -/
theorem claim_C8_amended (headline summary : String) (symbols : List String) :
    (∃ t, (classify_news headline summary symbols).matched_tickers =
            tickerMatchSymbols (symbols.map pyUpper) ++ t) ∧
    ((tickerMatchSymbols (symbols.map pyUpper)).Nodup →
      (classify_news headline summary symbols).matched_tickers.Nodup) ∧
    (∀ tk ∈ DEFAULT_WATCHLIST,
      (strContains (pyLower (headline ++ " " ++ summary)) (pyLower tk) = true ∨
       strContains (pyUpper headline) tk = true) →
      tk ∈ (classify_news headline summary symbols).matched_tickers) ∧
    (∀ tk ∈ (classify_news headline summary symbols).matched_tickers,
      tk ∈ symbols.map pyUpper ∨ tk ∈ DEFAULT_WATCHLIST ∨
        ∃ pr ∈ COMPANY_MAP, tk = pr.2) := by
  rw [classify_news_matched]
  refine ⟨?_, ?_, ?_, ?_⟩
  · obtain ⟨t1, h1⟩ := appendStage_exists_suffix id
      (fun tk => strContains (pyLower (headline ++ " " ++ summary)) (pyLower tk) ||
        strContains (pyUpper headline) tk)
      DEFAULT_WATCHLIST (tickerMatchSymbols (symbols.map pyUpper))
    obtain ⟨t2, h2⟩ := appendStage_exists_suffix Prod.snd
      (fun pr => strContains (pyLower (headline ++ " " ++ summary)) pr.1)
      COMPANY_MAP
      (headlineScanStage (pyLower (headline ++ " " ++ summary)) (pyUpper headline)
        (tickerMatchSymbols (symbols.map pyUpper)))
    have h1' : headlineScanStage (pyLower (headline ++ " " ++ summary)) (pyUpper headline)
        (tickerMatchSymbols (symbols.map pyUpper)) =
          tickerMatchSymbols (symbols.map pyUpper) ++ t1 := h1
    have h2' : companyNameStage (pyLower (headline ++ " " ++ summary))
        (headlineScanStage (pyLower (headline ++ " " ++ summary)) (pyUpper headline)
          (tickerMatchSymbols (symbols.map pyUpper))) =
        headlineScanStage (pyLower (headline ++ " " ++ summary)) (pyUpper headline)
          (tickerMatchSymbols (symbols.map pyUpper)) ++ t2 := h2
    exact ⟨t1 ++ t2, by rw [h2', h1', List.append_assoc]⟩
  · intro h0
    exact appendStage_nodup _ _ _ _ (appendStage_nodup _ _ _ _ h0)
  · intro tk htk hcond
    refine appendStage_mem_of_mem _ _ _ _ _ ?_
    have : (fun tk => strContains (pyLower (headline ++ " " ++ summary)) (pyLower tk) ||
        strContains (pyUpper headline) tk) tk = true := by
      rcases hcond with h | h <;> simp [h]
    exact appendStage_mem_of_hit _ _ DEFAULT_WATCHLIST _ tk htk this
  · intro tk htk
    rcases appendStage_mem_cases _ _ _ _ _ htk with h2 | ⟨pr, hpr, rfl⟩
    · rcases appendStage_mem_cases _ _ _ _ _ h2 with h1 | ⟨x, hx, rfl⟩
      · exact Or.inl ((List.mem_filter.mp h1).1)
      · exact Or.inr (Or.inl hx)
    · exact Or.inr (Or.inr ⟨pr, hpr, rfl⟩)

/-- Witness for C8 amended, at the counterexample's concrete input:
`META` is matched because `"meta"` is a substring of the text, and the
result is duplicate-free since the filtered symbols are. -/
theorem claim_C8_amended_witness :
    ("META" ∈ DEFAULT_WATCHLIST ∧
     strContains (pyLower ("metamorphosis" ++ " " ++ "")) (pyLower "META") = true ∧
     (tickerMatchSymbols (["AAPL"].map pyUpper)).Nodup) ∧
    "META" ∈ (classify_news "metamorphosis" "" ["AAPL"]).matched_tickers ∧
    (classify_news "metamorphosis" "" ["AAPL"]).matched_tickers.Nodup :=
  ⟨⟨by decide, by decide, by decide⟩,
   (claim_C8_amended "metamorphosis" "" ["AAPL"]).2.2.1 "META" (by decide)
     (Or.inl (by decide)),
   (claim_C8_amended "metamorphosis" "" ["AAPL"]).2.1 (by decide)⟩

/-! ## Pending-alert queue (`realtime_news.py` lines 110–141)

The authoritative queue state is the JSON file `pending.json`:
`add_alert` re-loads it, appends, and re-saves it, and
`pop_pending_alerts` loads it and saves `[]`.  We therefore model both
as transformers of the parsed file contents (a `List Alert`). -/

/-- The alert record built by the adapters (lines 303–315 / 375–387 /
445–457).  The `is_macro` key is spelled `isMacro`. -/
structure Alert where
  source : String
  headline : String
  summary : String
  symbols : List String
  urgency : String
  isMacro : Bool
  ticker : String
  matched_tickers : List String
  keywords : List String
  timestamp : String
  url : String
  deriving DecidableEq, Repr

/-- `_save_pending` (lines 119–125): the saved contents are
`alerts[-100:]` — only the last 100 pending alerts are kept. -/
def save_pending (alerts : List Alert) : List Alert :=
  takeLast 100 alerts

/-- `add_alert` (lines 128–133) as a transformer of the persisted
queue: load, append one alert, save (truncating to the last 100).
Eviction of the oldest entry past 100 is silent — the function is
total and signals nothing. -/
def add_alert (file : List Alert) (alert : Alert) : List Alert :=
  save_pending (file ++ [alert])

/-- `pop_pending_alerts` (lines 136–141): returns the whole queue and
the new persisted state (the queue is cleared when nonempty; when it
was empty no write happens and the state stays empty). -/
def pop_pending_alerts (file : List Alert) : List Alert × List Alert :=
  (file, if file.isEmpty then file else save_pending [])

/-- A minimal alert used to drive the queue scenarios; alerts are
distinguished by their headline. -/
def mkAlert (i : Nat) : Alert :=
  { source := "rss:CNBC_Top", headline := toString i, summary := "",
    symbols := [], urgency := "high", isMacro := false, ticker := "MACRO",
    matched_tickers := [], keywords := [], timestamp := "", url := "" }

set_option maxRecDepth 8000 in
/-- C4: 101 sequential `add_alert` calls on an initially empty store
leave exactly 100 entries, the 1st-appended alert is gone and the 101st
is present; and in general an `add_alert` never leaves more than 100
entries and never signals overflow (it is a total function whose result
is always the truncated queue). -/
theorem claim_C4 :
    (((List.range 101).map mkAlert).foldl add_alert []).length = 100 ∧
    mkAlert 0 ∉ ((List.range 101).map mkAlert).foldl add_alert [] ∧
    mkAlert 100 ∈ ((List.range 101).map mkAlert).foldl add_alert [] ∧
    (∀ (file : List Alert) (a : Alert), (add_alert file a).length ≤ 100) := by
  refine ⟨by decide, by decide, by decide, ?_⟩
  intro file a
  show (takeLast 100 (file ++ [a])).length ≤ 100
  simp only [takeLast, List.length_drop, List.length_append, List.length_cons,
    List.length_nil]
  omega

/-- C5: `pop_pending_alerts` returns the entire current queue, the
queue is empty immediately after it, and a second pop with no
intervening append returns `[]`. -/
theorem claim_C5 (file : List Alert) :
    (pop_pending_alerts file).1 = file ∧
    (pop_pending_alerts file).2 = [] ∧
    (pop_pending_alerts (pop_pending_alerts file).2).1 = [] := by
  refine ⟨rfl, ?_, ?_⟩
  · show (if file.isEmpty then file else save_pending []) = []
    by_cases h : file.isEmpty
    · rw [if_pos h]; exact List.isEmpty_iff.mp h
    · rw [if_neg h]; rfl
  · show (if file.isEmpty then file else save_pending []) = []
    by_cases h : file.isEmpty
    · rw [if_pos h]; exact List.isEmpty_iff.mp h
    · rw [if_neg h]; rfl

/-! ## Loading persisted state (`_load_seen` lines 89–97, `_load_pending`
lines 110–116)

Both loaders wrap everything in `try/except` and fall back to empty
state.  We model the possible outcomes of
`FILE.exists()` / `FILE.read_text()` / `json.loads(...)` as an explicit
input alphabet; the "parsed" cases carry the decoded value.  (A JSON
document that parses to a non-string-array is ruled by the slicing
semantics of the decoded Python value; files written by the daemon
itself are always arrays.) -/

/-- Outcomes relevant to `_load_seen`. -/
inductive SeenLoadInput where
  /-- `SEEN_FILE.exists()` is false. -/
  | missing
  /-- `read_text()` raised (caught by the bare `except`). -/
  | readError
  /-- `json.loads` raised `JSONDecodeError` (caught). -/
  | invalidJson
  /-- the file parsed to a JSON array of strings (what `_save_seen` writes). -/
  | parsedArray (xs : List String)
  /-- the file parsed to a JSON string: Python slices it to its last
  5000 characters and `set(...)` yields its one-character strings. -/
  | parsedString (s : String)
  /-- the file parsed to an unsliceable value (object/number/bool/null):
  `data[-5000:]` raises `TypeError` (caught). -/
  | parsedOther
  deriving DecidableEq

/-- `_load_seen()` (lines 89–97): any failure yields the empty set;
otherwise `set(data[-5000:])` (a set, modelled as a deduplicated list). -/
def load_seen : SeenLoadInput → List String
  | .missing => []
  | .readError => []
  | .invalidJson => []
  | .parsedArray xs => (takeLast 5000 xs).dedup
  | .parsedString s => ((takeLast 5000 s.data).map (fun c => String.mk [c])).dedup
  | .parsedOther => []

/-- Outcomes relevant to `_load_pending`. -/
inductive PendingLoadInput where
  /-- `PENDING_FILE.exists()` is false. -/
  | missing
  /-- `read_text()` raised (caught by the bare `except`). -/
  | readError
  /-- `json.loads` raised `JSONDecodeError` (caught). -/
  | invalidJson
  /-- the file parsed to a JSON array of alert records. -/
  | parsedArray (xs : List Alert)
  /-- the file parsed to a falsy value (`null`, `false`, `0`, `""`,
  `{}`): `json.loads(...) or []` yields `[]`. -/
  | parsedFalsy
  deriving DecidableEq

/-- `_load_pending()` (lines 110–116): any failure yields `[]`;
otherwise `json.loads(...) or []` (an empty parsed array is likewise
replaced by `[]`, which is the same list). -/
def load_pending : PendingLoadInput → List Alert
  | .missing => []
  | .readError => []
  | .invalidJson => []
  | .parsedArray xs => if xs.isEmpty then [] else xs
  | .parsedFalsy => []

/-- C10: loading persisted state never raises — on a missing file, an
unreadable file, or invalid JSON, `_load_seen` returns the empty set
and `_load_pending` the empty list, so the daemon starts with empty
state.  (Totality of the two Lean functions mirrors the blanket
`except` in the source.) -/
theorem claim_C10 :
    load_seen SeenLoadInput.missing = [] ∧
    load_seen SeenLoadInput.readError = [] ∧
    load_seen SeenLoadInput.invalidJson = [] ∧
    load_pending PendingLoadInput.missing = [] ∧
    load_pending PendingLoadInput.readError = [] ∧
    load_pending PendingLoadInput.invalidJson = [] :=
  ⟨rfl, rfl, rfl, rfl, rfl, rfl⟩

/-! ## Seen-fingerprint cache (`realtime_news.py` lines 89–107)

The in-memory `seen` object is a Python `set`; every adapter does
`if nid in seen: continue` / `seen.add(nid)` with **no** size bound.
Only `_save_seen` bounds anything, and it does so by
`sorted(seen)[-5000:]` — the *sorted* last 5000, i.e. the
lexicographically greatest 5000, not the 5000 most recently inserted.
We model the set as a duplicate-free list (every operation that touches
order goes through `sorted`, so the list order is irrelevant). -/

/-- The adapters' check-and-record step
(`if nid in seen: continue` / `seen.add(nid)`, lines 295–297, 368–370,
438–440). -/
def record_seen (seen : List String) (nid : String) : List String :=
  if nid ∈ seen then seen else seen ++ [nid]

/-- `_save_seen` (lines 100–107): the persisted contents are
`sorted(seen)[-5000:]`. -/
def save_seen (seen : List String) : List String :=
  takeLast 5000 (List.insertionSort (· ≤ ·) seen)

theorem takeLast_length_le {α : Type} (n : Nat) (l : List α) :
    (takeLast n l).length ≤ n := by
  simp only [takeLast, List.length_drop]
  omega

theorem takeLast_eq_self {α : Type} (n : Nat) (l : List α) (h : l.length ≤ n) :
    takeLast n l = l := by
  simp only [takeLast, Nat.sub_eq_zero_of_le h, List.drop_zero]

/-- Recording a run of fresh, distinct fingerprints appends all of them. -/
theorem foldl_record_seen_of_nodup :
    ∀ (l : List String) (acc : List String), l.Nodup → (∀ x ∈ l, x ∉ acc) →
      l.foldl record_seen acc = acc ++ l := by
  intro l
  induction l with
  | nil => intro acc _ _; simp
  | cons x xs ih =>
    intro acc hnd hdisj
    have hx : x ∉ acc := hdisj x (List.mem_cons_self _ _)
    rw [List.foldl_cons]
    simp only [record_seen, if_neg hx]
    rw [ih (acc ++ [x]) (List.nodup_cons.mp hnd).2]
    · simp
    · intro y hy hmem
      rcases List.mem_append.mp hmem with h | h
      · exact hdisj y (List.mem_cons_of_mem _ hy) h
      · exact (List.nodup_cons.mp hnd).1 (List.mem_singleton.mp h ▸ hy)

/-- The `i`-th scenario fingerprint: a run of `i` letters `a` (so all
5000 of them sort strictly below `"z"`, and `fpOfNat 0 = ""` is the
least string of all). -/
def fpOfNat (i : Nat) : String := String.mk (List.replicate i 'a')

/-- 5001 distinct fingerprints, `"z"` inserted first. -/
def fps5001 : List String := "z" :: (List.range 5000).map fpOfNat

/-- The in-memory seen-set after recording the 5001 fingerprints in
order, starting from empty. -/
def seen5001 : List String := fps5001.foldl record_seen []

theorem fpOfNat_injective : Function.Injective fpOfNat := by
  intro i j h
  have h2 := congrArg (fun s => s.data.length) h
  simpa [fpOfNat] using h2

theorem z_not_mem_map : "z" ∉ (List.range 5000).map fpOfNat := by
  intro h
  obtain ⟨i, _, hfi⟩ := List.mem_map.mp h
  have hd : List.replicate i 'a' = ['z'] := congrArg String.data hfi
  have hlen : i = 1 := by
    have := congrArg List.length hd
    simpa using this
  subst hlen
  exact absurd hd (by decide)

theorem fps5001_nodup : fps5001.Nodup :=
  List.nodup_cons.mpr
    ⟨z_not_mem_map, List.Nodup.map fpOfNat_injective (List.nodup_range 5000)⟩

theorem fps5001_length : fps5001.length = 5001 := by
  simp [fps5001]

theorem seen5001_eq : seen5001 = fps5001 := by
  have h := foldl_record_seen_of_nodup fps5001 [] fps5001_nodup
    (by intro x _ hx; exact List.not_mem_nil x hx)
  simpa [seen5001] using h

theorem not_list_lt_nil (l : List Char) : ¬ l < ([] : List Char) := by
  intro h
  cases h

theorem not_string_lt_empty (s : String) : ¬ s < "" := by
  intro h
  have he : "".toList = ([] : List Char) := rfl
  rw [String.lt_iff_toList_lt, he] at h
  exact not_list_lt_nil _ h

theorem empty_le_string (s : String) : ("" : String) ≤ s :=
  le_of_not_lt (not_string_lt_empty s)

theorem empty_mem_fps5001 : ("" : String) ∈ fps5001 :=
  List.mem_cons_of_mem _
    (List.mem_map.mpr ⟨0, List.mem_range.mpr (by omega), rfl⟩)

theorem z_mem_fps5001 : ("z" : String) ∈ fps5001 := List.mem_cons_self _ _

/-- What `_save_seen` persists for the 5001-fingerprint scenario: 5000
entries, sorted ascending, duplicate-free, with the least fingerprint
`""` dropped and the first-inserted (but lexicographically greatest)
`"z"` retained. -/
theorem save_seen_seen5001_facts :
    (save_seen seen5001).length = 5000 ∧
    List.Sorted (· ≤ ·) (save_seen seen5001) ∧
    (save_seen seen5001).Nodup ∧
    ("" : String) ∉ save_seen seen5001 ∧
    ("z" : String) ∈ save_seen seen5001 := by
  rw [seen5001_eq]
  have hperm := List.perm_insertionSort (α := String) (· ≤ ·) fps5001
  have hlen : (List.insertionSort (α := String) (· ≤ ·) fps5001).length = 5001 :=
    hperm.length_eq.trans fps5001_length
  have hsorted := List.sorted_insertionSort (α := String) (· ≤ ·) fps5001
  have hnodup : (List.insertionSort (α := String) (· ≤ ·) fps5001).Nodup :=
    hperm.symm.nodup fps5001_nodup
  obtain ⟨h, t, hL⟩ :
      ∃ h t, List.insertionSort (α := String) (· ≤ ·) fps5001 = h :: t := by
    cases hC : List.insertionSort (α := String) (· ≤ ·) fps5001 with
    | nil => rw [hC] at hlen; simp at hlen
    | cons a b => exact ⟨a, b, rfl⟩
  rw [hL] at hlen hsorted hnodup
  have ht : t.length = 5000 := by simpa using hlen
  have hsave : save_seen fps5001 = t := by
    show takeLast 5000 (List.insertionSort (· ≤ ·) fps5001) = t
    rw [hL]
    simp [takeLast, ht]
  have hhead := (List.sorted_cons.mp hsorted).1
  have hst := (List.sorted_cons.mp hsorted).2
  have hemem : ("" : String) ∈ h :: t := by
    have := hperm.mem_iff.mpr empty_mem_fps5001
    rwa [hL] at this
  have hzmem : ("z" : String) ∈ h :: t := by
    have := hperm.mem_iff.mpr z_mem_fps5001
    rwa [hL] at this
  have hh : h = "" := by
    rcases List.mem_cons.mp hemem with he | ht'
    · exact he.symm
    · exact le_antisymm (hhead _ ht') (empty_le_string h)
  have hnotmem : ("" : String) ∉ t := by
    rw [← hh]
    exact (List.nodup_cons.mp hnodup).1
  have hzt : ("z" : String) ∈ t := by
    rcases List.mem_cons.mp hzmem with he | ht'
    · rw [hh] at he; exact absurd he (by decide)
    · exact ht'
  exact ⟨hsave ▸ ht, hsave ▸ hst, hsave ▸ (List.nodup_cons.mp hnodup).2,
         hsave ▸ hnotmem, hsave ▸ hzt⟩

/-- C2 counterexample: `"z"` is the very first of 5001 distinct
fingerprints inserted into the cache, yet after `_save_seen` it is
still present in the persisted file — eviction is not FIFO by insertion
order (the file is `sorted(seen)[-5000:]`, and `"z"` sorts last). -/
theorem claim_C2_counterexample :
    fps5001.head? = some "z" ∧ ("z" : String) ∈ save_seen seen5001 :=
  ⟨rfl, save_seen_seen5001_facts.2.2.2.2⟩

/-- C2 amended: inserting 5001 distinct fingerprints leaves all 5001 in
the in-memory set (it is unbounded); `_save_seen` persists
`sorted(seen)[-5000:]` — exactly 5000 fingerprints, sorted ascending
(not oldest-first), keeping the lexicographically greatest 5000: the
least fingerprint `""` is the one dropped (regardless of it not being
the first inserted) while the first-inserted `"z"` survives; reloading
the persisted file yields those same 5000 fingerprints. -/
theorem claim_C2_amended :
    seen5001.length = 5001 ∧
    (save_seen seen5001).length = 5000 ∧
    List.Sorted (· ≤ ·) (save_seen seen5001) ∧
    ("" : String) ∈ seen5001 ∧
    ("" : String) ∉ save_seen seen5001 ∧
    ("z" : String) ∈ save_seen seen5001 ∧
    load_seen (SeenLoadInput.parsedArray (save_seen seen5001)) = save_seen seen5001 := by
  obtain ⟨hlen, hsorted, hnodup, hnot, hz⟩ := save_seen_seen5001_facts
  refine ⟨?_, hlen, hsorted, ?_, hnot, hz, ?_⟩
  · rw [seen5001_eq]; exact fps5001_length
  · rw [seen5001_eq]; exact empty_mem_fps5001
  · show (takeLast 5000 (save_seen seen5001)).dedup = save_seen seen5001
    rw [takeLast_eq_self 5000 _ (le_of_eq hlen)]
    exact List.dedup_eq_self.mpr hnodup

/-- C3 counterexample: after recording 5001 distinct fingerprints the
in-memory seen-set holds 5001 entries — the `size() ≤ 5000` invariant
does not hold after every record operation, only for the persisted
file. -/
theorem claim_C3_counterexample : ¬ (seen5001.length ≤ 5000) := by
  rw [seen5001_eq, fps5001_length]
  omega

/-- C3 amended: the 5000-entry bound holds for the persisted
seen-fingerprint file (every `_save_seen` writes at most 5000 entries)
and for every freshly loaded seen-set (`_load_seen` returns at most
5000), but not for the in-memory set between persists. -/
theorem claim_C3_amended :
    (∀ seen : List String, (save_seen seen).length ≤ 5000) ∧
    (∀ inp : SeenLoadInput, (load_seen inp).length ≤ 5000) := by
  constructor
  · intro seen
    exact takeLast_length_le _ _
  · intro inp
    cases inp with
    | missing => decide
    | readError => decide
    | invalidJson => decide
    | parsedOther => decide
    | parsedArray xs =>
      calc (load_seen (SeenLoadInput.parsedArray xs)).length
          ≤ (takeLast 5000 xs).length :=
            List.Sublist.length_le (List.dedup_sublist _)
        _ ≤ 5000 := takeLast_length_le _ _
    | parsedString s =>
      calc (load_seen (SeenLoadInput.parsedString s)).length
          ≤ ((takeLast 5000 s.data).map (fun c => String.mk [c])).length :=
            List.Sublist.length_le (List.dedup_sublist _)
        _ = (takeLast 5000 s.data).length := List.length_map _ _
        _ ≤ 5000 := takeLast_length_le _ _

/-! ## Persistence write traces (claim C6)

`_save_pending` writes with a single `PENDING_FILE.write_text(...)`
call (line 123) and `_save_seen` with a single
`SEEN_FILE.write_text(...)` call (line 105).  Neither touches any other
path and neither calls any rename/replace API.  We model the sequence
of filesystem mutations each performs (the written contents themselves
are the pure functions `save_pending` / `save_seen` above). -/

/-- A filesystem mutation step. -/
inductive FileSysOp where
  /-- `Path.write_text(path)`: an in-place (non-atomic) write. -/
  | writeText (path : String)
  /-- `os.rename` / `os.replace`-style atomic rename of `src` over `dst`. -/
  | rename (src dst : String)
  deriving DecidableEq

def pendingFilePath : String := "data/alerts/pending.json"

def seenFilePath : String := "data/alerts/seen_ids.json"

/-- The filesystem mutations performed by `_save_pending` (line 123). -/
def save_pending_ops : List FileSysOp := [FileSysOp.writeText pendingFilePath]

/-- The filesystem mutations performed by `_save_seen` (line 105). -/
def save_seen_ops : List FileSysOp := [FileSysOp.writeText seenFilePath]

/-- The spec's "temp-file-then-atomic-rename" discipline for a write
trace targeting `target`: first write a distinct temporary path, then
rename it over the target. -/
def tempThenRename (ops : List FileSysOp) (target : String) : Prop :=
  ∃ tmp, tmp ≠ target ∧
    ops = [FileSysOp.writeText tmp, FileSysOp.rename tmp target]

/-- `true` iff the op writes in place to the given path. -/
def FileSysOp.isWriteTo (op : FileSysOp) (path : String) : Bool :=
  match op with
  | .writeText p => p == path
  | .rename _ _ => false

/-- C6 counterexample: neither persistence routine follows the
temp-file-then-atomic-rename pattern — each performs a single direct
`write_text` to the target path. -/
theorem claim_C6_counterexample :
    ¬ tempThenRename save_pending_ops pendingFilePath ∧
    ¬ tempThenRename save_seen_ops seenFilePath := by
  constructor
  · rintro ⟨tmp, -, heq⟩
    have h2 := congrArg List.length heq
    simp [save_pending_ops] at h2
  · rintro ⟨tmp, -, heq⟩
    have h2 := congrArg List.length heq
    simp [save_seen_ops] at h2

/-- C6 amended: every persisted file write (pending queue and seen
cache) is a single, direct, in-place `write_text` to the target path —
no temporary file and no rename are involved, so a crash mid-write can
leave a partially-written target file. -/
theorem claim_C6_amended :
    save_pending_ops = [FileSysOp.writeText pendingFilePath] ∧
    save_seen_ops = [FileSysOp.writeText seenFilePath] ∧
    (save_pending_ops ++ save_seen_ops).all
      (fun op => match op with | .writeText _ => true | .rename _ _ => false) = true ∧
    save_pending_ops.all (fun op => op.isWriteTo pendingFilePath) = true ∧
    save_seen_ops.all (fun op => op.isWriteTo seenFilePath) = true :=
  ⟨rfl, rfl, by decide, by decide, by decide⟩

/-! ## WebSocket reconnect backoff (`alpaca_news_stream`, lines 243–337)

State relevant to the claim: `reconnect_delay` starts at 1; any
exception in the connect/handshake/stream phase is caught by the
`except` arm, which sleeps `reconnect_delay` and then doubles it capped
at 60 (lines 335–337); completing the three-step handshake resets it
to 1 (line 270).  We model one iteration of the outer `while` loop by
the outcome of its connection attempt. -/

/-- Outcome of one connection attempt.  The four failure cases —
the TCP/WebSocket connect itself, or a timeout/failure at any of the
three handshake steps (`connected`/`auth`/`subscribe` messages) — all
land in the same `except` arm; `streaming` means the handshake
completed and line 270 ran (a later stream error surfaces as the next
attempt's failure). -/
inductive ConnOutcome where
  | connectFail
  | initFail
  | authFail
  | subFail
  | streaming
  deriving DecidableEq

/-- Whether the attempt failed before reaching `STREAMING`. -/
def ConnOutcome.isFailure : ConnOutcome → Bool
  | .streaming => false
  | _ => true

/-- Run the reconnect loop over a script of attempt outcomes from a
given `reconnect_delay`, returning the list of back-off sleeps
performed (in order) and the final `reconnect_delay`. -/
def wsDelays : Nat → List ConnOutcome → List Nat × Nat
  | d, [] => ([], d)
  | _, ConnOutcome.streaming :: rest => wsDelays 1 rest
  | d, _ :: rest =>
    let r := wsDelays (min (d * 2) 60) rest
    (d :: r.1, r.2)

theorem wsDelays_streaming_cons (d : Nat) (rest : List ConnOutcome) :
    wsDelays d (ConnOutcome.streaming :: rest) = wsDelays 1 rest := rfl

theorem wsDelays_failure_cons (d : Nat) (o : ConnOutcome) (rest : List ConnOutcome)
    (h : o.isFailure = true) :
    wsDelays d (o :: rest) =
      ((d :: (wsDelays (min (d * 2) 60) rest).1), (wsDelays (min (d * 2) 60) rest).2) := by
  cases o with
  | streaming => exact absurd h (by decide)
  | connectFail => rfl
  | initFail => rfl
  | authFail => rfl
  | subFail => rfl

theorem min_cap_mul (a c : Nat) (hc : 1 ≤ c) :
    min (min a 60 * c) 60 = min (a * c) 60 := by
  rcases le_or_lt a 60 with h | h
  · rw [min_eq_left h]
  · rw [min_eq_right (le_of_lt h)]
    have h1 : 60 ≤ 60 * c := Nat.le_mul_of_pos_right 60 (by omega)
    have h2 : 60 ≤ a * c := le_trans (le_of_lt h) (Nat.le_mul_of_pos_right a (by omega))
    rw [min_eq_right h1, min_eq_right h2]

/-- Over a script of consecutive failures, the sleeps from a starting
delay `d ≤ 60` are `min (d * 2^k) 60` for `k = 0, 1, …`, and the final
delay is `min (d * 2^n) 60`. -/
theorem wsDelays_all_failures :
    ∀ (outs : List ConnOutcome) (d : Nat), d ≤ 60 →
      (∀ o ∈ outs, o.isFailure = true) →
      (wsDelays d outs).1 =
        (List.range outs.length).map (fun k => min (d * 2 ^ k) 60) ∧
      (wsDelays d outs).2 = min (d * 2 ^ outs.length) 60 := by
  intro outs
  induction outs with
  | nil =>
    intro d hd _
    simp [wsDelays, min_eq_left hd]
  | cons o rest ih =>
    intro d hd hall
    have ho : o.isFailure = true := hall o (List.mem_cons_self _ _)
    rw [wsDelays_failure_cons d o rest ho]
    have hd' : min (d * 2) 60 ≤ 60 := min_le_right _ _
    obtain ⟨ih1, ih2⟩ := ih (min (d * 2) 60) hd'
      (fun o ho => hall o (List.mem_cons_of_mem _ ho))
    constructor
    · show d :: (wsDelays (min (d * 2) 60) rest).1 = _
      rw [ih1]
      rw [List.length_cons, List.range_succ_eq_map, List.map_cons, List.map_map]
      congr 1
      · simp [min_eq_left hd]
      · apply List.map_congr_left
        intro k _
        show min (min (d * 2) 60 * 2 ^ k) 60 = min (d * 2 ^ (k + 1)) 60
        rw [min_cap_mul (d * 2) (2 ^ k) (Nat.one_le_two_pow)]
        congr 1
        rw [Nat.mul_assoc, ← Nat.pow_succ']
    · show (wsDelays (min (d * 2) 60) rest).2 = _
      rw [ih2, min_cap_mul (d * 2) (2 ^ rest.length) (Nat.one_le_two_pow)]
      congr 1
      rw [List.length_cons, Nat.mul_assoc, ← Nat.pow_succ']

/-- The final delay after any script only depends on the suffix after
the last `streaming` outcome; in particular a script ending in
`streaming` ends with delay 1. -/
theorem wsDelays_append (l1 l2 : List ConnOutcome) :
    ∀ d, (wsDelays d (l1 ++ l2)).2 = (wsDelays (wsDelays d l1).2 l2).2 := by
  induction l1 with
  | nil => intro d; rfl
  | cons o rest ih =>
    intro d
    cases o with
    | streaming =>
      rw [List.cons_append, wsDelays_streaming_cons, wsDelays_streaming_cons]
      exact ih 1
    | connectFail =>
      rw [List.cons_append, wsDelays_failure_cons _ _ _ (by decide),
          wsDelays_failure_cons _ _ _ (by decide)]
      exact ih _
    | initFail =>
      rw [List.cons_append, wsDelays_failure_cons _ _ _ (by decide),
          wsDelays_failure_cons _ _ _ (by decide)]
      exact ih _
    | authFail =>
      rw [List.cons_append, wsDelays_failure_cons _ _ _ (by decide),
          wsDelays_failure_cons _ _ _ (by decide)]
      exact ih _
    | subFail =>
      rw [List.cons_append, wsDelays_failure_cons _ _ _ (by decide),
          wsDelays_failure_cons _ _ _ (by decide)]
      exact ih _

/-- C7: starting fresh (`reconnect_delay = 1`), after `N ≥ 1`
consecutive connection failures (of any kind: connect error, or a
timeout at any of the three handshake steps) the `N`-th retry delay is
`min (2^(N-1), 60)`; and after any script whose last attempt completed
the three-step handshake and reached `STREAMING`, the delay is reset to
the initial value 1. -/
theorem claim_C7 (outs : List ConnOutcome) (N : Nat)
    (hall : ∀ o ∈ outs, o.isFailure = true) (hlen : outs.length = N)
    (hN : 1 ≤ N) :
    (wsDelays 1 outs).1 = (List.range N).map (fun k => min (2 ^ k) 60) ∧
    (wsDelays 1 outs).1[N - 1]? = some (min (2 ^ (N - 1)) 60) ∧
    (∀ prior : List ConnOutcome,
      (wsDelays 1 (prior ++ [ConnOutcome.streaming])).2 = 1) := by
  obtain ⟨h1, _⟩ := wsDelays_all_failures outs 1 (by omega) hall
  rw [hlen] at h1
  have h1' : (wsDelays 1 outs).1 = (List.range N).map (fun k => min (2 ^ k) 60) := by
    rw [h1]
    apply List.map_congr_left
    intro k _
    rw [Nat.one_mul]
  refine ⟨h1', ?_, ?_⟩
  · rw [h1', List.getElem?_map, List.getElem?_range (by omega)]
    rfl
  · intro prior
    rw [wsDelays_append prior [ConnOutcome.streaming]]
    rfl

/-- Witness for C7: seven consecutive auth-step failures produce the
sleeps `1, 2, 4, 8, 16, 32, 60` — the 7th is `min (2^6, 60) = 60`. -/
theorem claim_C7_witness :
    ((∀ o ∈ List.replicate 7 ConnOutcome.authFail, o.isFailure = true) ∧
     (List.replicate 7 ConnOutcome.authFail).length = 7 ∧ 1 ≤ 7) ∧
    (wsDelays 1 (List.replicate 7 ConnOutcome.authFail)).1[7 - 1]? =
      some (min (2 ^ (7 - 1)) 60) ∧
    (wsDelays 1 ([ConnOutcome.connectFail] ++ [ConnOutcome.streaming])).2 = 1 :=
  ⟨⟨by decide, by decide, by omega⟩,
   (claim_C7 (List.replicate 7 ConnOutcome.authFail) 7 (by decide) (by decide)
      (by omega)).2.1,
   (claim_C7 (List.replicate 7 ConnOutcome.authFail) 7 (by decide) (by decide)
      (by omega)).2.2 [ConnOutcome.connectFail]⟩

/-! ## Dedup fingerprints (`_news_id`, lines 214–216, and the adapters)

`_news_id(headline, source)` is
`hashlib.md5(f"{source}:{headline}".encode()).hexdigest()[:16]`.
We implement MD5 (RFC 1321) on `Nat` with explicit `% 2^32`,
including UTF-8 encoding of the input string, so the fingerprint
functions are fully executable. -/

/-- UTF-8 encoding of one character (Python `str.encode()`). -/
def utf8Bytes (c : Char) : List Nat :=
  let n := c.toNat
  if n < 128 then [n]
  else if n < 2048 then [192 ||| (n >>> 6), 128 ||| (n &&& 63)]
  else if n < 65536 then
    [224 ||| (n >>> 12), 128 ||| ((n >>> 6) &&& 63), 128 ||| (n &&& 63)]
  else
    [240 ||| (n >>> 18), 128 ||| ((n >>> 12) &&& 63),
     128 ||| ((n >>> 6) &&& 63), 128 ||| (n &&& 63)]

/-- Python `s.encode()`: the UTF-8 bytes of a string. -/
def strBytes (s : String) : List Nat := s.data.flatMap utf8Bytes

/-- The 64 MD5 sine-table constants `K[i]` (RFC 1321). -/
def md5K : List Nat :=
  [0xd76aa478, 0xe8c7b756, 0x242070db, 0xc1bdceee,
   0xf57c0faf, 0x4787c62a, 0xa8304613, 0xfd469501,
   0x698098d8, 0x8b44f7af, 0xffff5bb1, 0x895cd7be,
   0x6b901122, 0xfd987193, 0xa679438e, 0x49b40821,
   0xf61e2562, 0xc040b340, 0x265e5a51, 0xe9b6c7aa,
   0xd62f105d, 0x02441453, 0xd8a1e681, 0xe7d3fbc8,
   0x21e1cde6, 0xc33707d6, 0xf4d50d87, 0x455a14ed,
   0xa9e3e905, 0xfcefa3f8, 0x676f02d9, 0x8d2a4c8a,
   0xfffa3942, 0x8771f681, 0x6d9d6122, 0xfde5380c,
   0xa4beea44, 0x4bdecfa9, 0xf6bb4b60, 0xbebfbc70,
   0x289b7ec6, 0xeaa127fa, 0xd4ef3085, 0x04881d05,
   0xd9d4d039, 0xe6db99e5, 0x1fa27cf8, 0xc4ac5665,
   0xf4292244, 0x432aff97, 0xab9423a7, 0xfc93a039,
   0x655b59c3, 0x8f0ccc92, 0xffeff47d, 0x85845dd1,
   0x6fa87e4f, 0xfe2ce6e0, 0xa3014314, 0x4e0811a1,
   0xf7537e82, 0xbd3af235, 0x2ad7d2bb, 0xeb86d391]

/-- The 64 MD5 per-round left-rotation amounts `s[i]` (RFC 1321). -/
def md5shifts : List Nat :=
  [7, 12, 17, 22, 7, 12, 17, 22, 7, 12, 17, 22, 7, 12, 17, 22,
   5, 9, 14, 20, 5, 9, 14, 20, 5, 9, 14, 20, 5, 9, 14, 20,
   4, 11, 16, 23, 4, 11, 16, 23, 4, 11, 16, 23, 4, 11, 16, 23,
   6, 10, 15, 21, 6, 10, 15, 21, 6, 10, 15, 21, 6, 10, 15, 21]

/-- 32-bit left rotation on `Nat` (inputs below `2^32`). -/
def rotl32 (x c : Nat) : Nat :=
  ((x <<< c) ||| (x >>> (32 - c))) % 4294967296

/-- The MD5 round mixing function for round `i` (`F`/`G`/`H`/`I`);
bitwise complement is `xor` with `2^32 - 1`. -/
def md5F (i B C D : Nat) : Nat :=
  if i < 16 then (B &&& C) ||| ((B ^^^ 4294967295) &&& D)
  else if i < 32 then (D &&& B) ||| ((D ^^^ 4294967295) &&& C)
  else if i < 48 then B ^^^ C ^^^ D
  else C ^^^ (B ||| (D ^^^ 4294967295))

/-- The MD5 message-word index for round `i`. -/
def md5g (i : Nat) : Nat :=
  if i < 16 then i
  else if i < 32 then (5 * i + 1) % 16
  else if i < 48 then (3 * i + 5) % 16
  else (7 * i) % 16

/-- One MD5 round on the state `(A, B, C, D)`. -/
def md5Round (M : List Nat) (st : Nat × Nat × Nat × Nat) (i : Nat) :
    Nat × Nat × Nat × Nat :=
  let A := st.1
  let B := st.2.1
  let C := st.2.2.1
  let D := st.2.2.2
  let f := (md5F i B C D + A + md5K.getD i 0 + M.getD (md5g i) 0) % 4294967296
  (D, (B + rotl32 f (md5shifts.getD i 0)) % 4294967296, B, C)

/-- Process one 64-byte chunk: decode 16 little-endian words, run the
64 rounds, add the result back into the state mod `2^32`. -/
def md5Chunk (st : Nat × Nat × Nat × Nat) (chunk : List Nat) :
    Nat × Nat × Nat × Nat :=
  let M := (List.range 16).map (fun j =>
    chunk.getD (4 * j) 0 + 256 * chunk.getD (4 * j + 1) 0 +
    65536 * chunk.getD (4 * j + 2) 0 + 16777216 * chunk.getD (4 * j + 3) 0)
  let r := (List.range 64).foldl (md5Round M) st
  ((st.1 + r.1) % 4294967296, (st.2.1 + r.2.1) % 4294967296,
   (st.2.2.1 + r.2.2.1) % 4294967296, (st.2.2.2 + r.2.2.2) % 4294967296)

/-- MD5 padding: append `0x80`, zero-pad to 56 mod 64, then the
original bit length as 8 little-endian bytes. -/
def md5pad (msg : List Nat) : List Nat :=
  msg ++ [128] ++ List.replicate ((120 - (msg.length + 1) % 64) % 64) 0 ++
    (List.range 8).map (fun i => ((msg.length * 8) >>> (8 * i)) % 256)

/-- Split a byte string into 64-byte chunks (structural recursion on a
fuel bounded by the length, so that the definition reduces in the
kernel; the fuel `l.length` always suffices). -/
def chunksAux : Nat → List Nat → List (List Nat)
  | 0, _ => []
  | _, [] => []
  | fuel + 1, l => l.take 64 :: chunksAux fuel (l.drop 64)

/-- Split a byte string into 64-byte chunks. -/
def chunks64 (l : List Nat) : List (List Nat) := chunksAux l.length l

/-- The 16 MD5 digest bytes of a byte string. -/
def md5Bytes (msg : List Nat) : List Nat :=
  let st := (chunks64 (md5pad msg)).foldl md5Chunk
    (0x67452301, 0xefcdab89, 0x98badcfe, 0x10325476)
  [st.1, st.2.1, st.2.2.1, st.2.2.2].flatMap
    (fun w => (List.range 4).map (fun i => (w >>> (8 * i)) % 256))

/-- Lower-case hex digit. -/
def hexChar (n : Nat) : Char :=
  if n < 10 then Char.ofNat (48 + n) else Char.ofNat (87 + n)

/-- Two lower-case hex digits of a byte. -/
def byteToHex (b : Nat) : List Char := [hexChar (b / 16), hexChar (b % 16)]

/-- `hashlib.md5(s.encode()).hexdigest()`. -/
def md5hex (s : String) : String :=
  String.mk ((md5Bytes (strBytes s)).flatMap byteToHex)

-- RFC 1321 / `hashlib` test vectors.
set_option maxRecDepth 100000 in
example : md5hex "" = "d41d8cd98f00b204e9800998ecf8427e" := by decide

set_option maxRecDepth 100000 in
example : md5hex "abc" = "900150983cd24fb0d6963f7d28e17f72" := by decide

/-- `_news_id(headline, source)` (lines 214–216):
`hashlib.md5(f"{source}:{headline}".encode()).hexdigest()[:16]`. -/
def news_id (headline : String) (source : String) : String :=
  pyTake (md5hex (source ++ ":" ++ headline)) 16

/-- The fields of an Alpaca news WebSocket message used by the dedup
path (lines 285–293).  `id` is the optional integer provider id;
`source` is optional with default `"alpaca"`. -/
structure AlpacaMsg where
  T : String
  id : Option Nat
  headline : String
  summary : String
  symbols : List String
  source : Option String
  deriving DecidableEq

/-- Line 292: `source = msg.get("source", "alpaca")`. -/
def alpacaSource (m : AlpacaMsg) : String := m.source.getD "alpaca"

/-- Line 293: `nid = str(msg.get("id", _news_id(headline, source)))` —
the provider id is used *directly* (stringified, unhashed) when
present; only when absent is the `(source, headline)` hash used. -/
def alpacaNid (m : AlpacaMsg) : String :=
  match m.id with
  | some i => toString i
  | none => news_id m.headline (alpacaSource m)

/-- Line 366: `nid = _news_id(title, feed_name)`. -/
def rssNid (title feedName : String) : String := news_id title feedName

/-- Line 436: `nid = _news_id(headline, "finnhub")`. -/
def finnhubNid (headline : String) : String := news_id headline "finnhub"

/-- The spec's fingerprint, following its words: "a stable hash of
`(source, providerId-or-headline)`", instantiated with the program's
hash function `_news_id`. -/
def specFingerprint (source pidOrHeadline : String) : String :=
  news_id pidOrHeadline source

set_option maxRecDepth 100000 in
/-- C9 counterexample: an Alpaca message carrying provider id `7` from
source `"benzinga"` gets fingerprint `"7"` — the raw stringified id,
not the hash of the `(source, providerId)` pair, which would be
`"6279716605b5d7b8"`. -/
theorem claim_C9_counterexample :
    alpacaNid { T := "n", id := some 7, headline := "Fed cuts rates",
                summary := "", symbols := [], source := some "benzinga" } = "7" ∧
    specFingerprint "benzinga" "7" = "6279716605b5d7b8" ∧
    alpacaNid { T := "n", id := some 7, headline := "Fed cuts rates",
                summary := "", symbols := [], source := some "benzinga" } ≠
      specFingerprint "benzinga" "7" := by
  exact ⟨rfl, by decide, by decide⟩

/-- C9 amended: the dedup fingerprint is the stable hash
`md5(source + ":" + headline)[:16]` on the RSS and Finnhub adapters,
and on the Alpaca adapter when the payload carries no provider id;
when an Alpaca payload does carry a provider id, the fingerprint is
the stringified id itself — unhashed and independent of the source.
On every adapter, two events agreeing on source, provider id and
headline map to the same fingerprint. -/
theorem claim_C9_amended :
    (∀ m : AlpacaMsg, m.id = none →
      alpacaNid m = specFingerprint (alpacaSource m) m.headline) ∧
    (∀ (i : Nat) (m : AlpacaMsg), m.id = some i → alpacaNid m = toString i) ∧
    (∀ title feedName, rssNid title feedName = specFingerprint feedName title) ∧
    (∀ headline, finnhubNid headline = specFingerprint "finnhub" headline) ∧
    (∀ m1 m2 : AlpacaMsg, alpacaSource m1 = alpacaSource m2 → m1.id = m2.id →
      m1.headline = m2.headline → alpacaNid m1 = alpacaNid m2) := by
  refine ⟨?_, ?_, ?_, ?_, ?_⟩
  · intro m h
    unfold alpacaNid
    rw [h]
    exact rfl
  · intro i m h
    unfold alpacaNid
    rw [h]
  · intro title feedName
    rfl
  · intro headline
    rfl
  · intro m1 m2 hsrc hid hhl
    unfold alpacaNid
    rw [hid, hhl, hsrc]

/-- Witness for C9 amended: a concrete id-less Alpaca message hashes
`(source, headline)`, and a concrete message with id `42` gets
fingerprint `"42"`. -/
theorem claim_C9_amended_witness :
    (({ T := "n", id := none, headline := "Fed cuts rates", summary := "",
        symbols := [], source := none } : AlpacaMsg).id = none) ∧
    alpacaNid { T := "n", id := none, headline := "Fed cuts rates", summary := "",
                symbols := [], source := none } =
      specFingerprint
        (alpacaSource { T := "n", id := none, headline := "Fed cuts rates",
                        summary := "", symbols := [], source := none })
        "Fed cuts rates" ∧
    alpacaNid { T := "n", id := some 42, headline := "x", summary := "",
                symbols := [], source := some "benzinga" } = "42" :=
  ⟨rfl,
   claim_C9_amended.1
     { T := "n", id := none, headline := "Fed cuts rates", summary := "",
       symbols := [], source := none } rfl,
   claim_C9_amended.2.1 42
     { T := "n", id := some 42, headline := "x", summary := "",
       symbols := [], source := some "benzinga" } rfl⟩
